import Mathlib

/-!
Shallow embedding of the type-erasure shape demo.

The C++ sources define three concrete value types (src/Circle.h, src/Square.h,
and the inline Triangle in src/main.cpp), one drawShape overload per type
(src/main.cpp), and the type-erasing wrapper Shape (src/Shape.h).  Shape holds
a `std::unique_ptr<ShapeConcept> pimpl`; for a wrapped value of type T the
pointee is a `ShapeModel<T>` that stores the value (`T object`) and whose
virtual `draw` calls the drawShape overload fixed at the instantiation of
ShapeModel<T>, and whose virtual `clone` copies the model onto a fresh heap
allocation.

The embedding makes the heap explicit (a list of models; a Shape holds an
optional address, `none` standing for a null unique_ptr, i.e. a moved-from
wrapper), so that copy independence and move transfer are faithful: cloning
allocates a fresh cell, moving transfers the address and nulls the source.
The C++ `double` scalars are modelled as rationals: the program performs no
arithmetic on them, only storage and text output, and every literal it uses
is an integer.  Output lines written to std::cout are modelled as the strings
returned by draw, and the "copy ctor"/"copy assign" lines as explicit traces.
-/

namespace ShapeDemo

/-- Circle from src/Circle.h: a single double field `radius` set at
construction, read by getRadius. -/
structure Circle where
  radius : ℚ
deriving DecidableEq, Repr

/-- Circle::getRadius from src/Circle.h. -/
def Circle.getRadius (c : Circle) : ℚ := c.radius

/-- Square from src/Square.h: a single double field `side` set at
construction, read by getSide. -/
structure Square where
  side : ℚ
deriving DecidableEq, Repr

/-- Square::getSide from src/Square.h. -/
def Square.getSide (s : Square) : ℚ := s.side

/-- Triangle from src/main.cpp: an empty class. -/
structure Triangle where
deriving DecidableEq, Repr

/-- drawShape(Circle const&) from src/main.cpp: writes "Circle: <radius>". -/
def drawShapeCircle (c : Circle) : String := "Circle: " ++ toString c.getRadius

/-- drawShape(Square const&) from src/main.cpp: writes "Square: <side>". -/
def drawShapeSquare (s : Square) : String := "Square: " ++ toString s.getSide

/-- drawShape(Triangle const&) from src/main.cpp: writes "Δ". -/
def drawShapeTriangle (_t : Triangle) : String := "Δ"

/-- The three concrete types a Shape is instantiated with in this program,
as a closed sum.  In C++ the set is open; the program only ever wraps these
three, so the closed sum covers every instantiation of ShapeModel<T> that
exists in the binary. -/
inductive ConcreteValue where
  | circle (c : Circle)
  | square (s : Square)
  | triangle (t : Triangle)
deriving DecidableEq, Repr

/-- The static type of a wrapped value (the template argument T). -/
inductive ConcreteTag where
  | circle
  | square
  | triangle
deriving DecidableEq, Repr

/-- The static type of a ConcreteValue. -/
def ConcreteValue.tag : ConcreteValue → ConcreteTag
  | .circle _ => .circle
  | .square _ => .square
  | .triangle _ => .triangle

/-- Overload resolution of drawShape at a call site where the concrete type
is statically known: dispatch on the static type to the matching overload
from src/main.cpp. -/
def drawShapeVal : ConcreteValue → String
  | .circle c => drawShapeCircle c
  | .square s => drawShapeSquare s
  | .triangle t => drawShapeTriangle t

/-- Which drawShape overload a ShapeModel instantiation has baked into its
virtual draw.  In C++ this is the overload chosen when ShapeModel<T>::draw is
instantiated; the embedding records it as data so that the binding is a fact
about the model distinct from the stored value. -/
inductive DrawBinding where
  | circleDraw
  | squareDraw
  | triangleDraw
deriving DecidableEq, Repr

/-- The overload selected for a given static type at instantiation time. -/
def bindingFor : ConcreteTag → DrawBinding
  | .circle => .circleDraw
  | .square => .squareDraw
  | .triangle => .triangleDraw

/-- Invoke a recorded binding on a stored value.  A mismatched combination
(some other type's overload applied to a value) has no meaning in the C++
program — no such call can be formed — and is mapped to `none`. -/
def applyBinding : DrawBinding → ConcreteValue → Option String
  | .circleDraw, .circle c => some (drawShapeCircle c)
  | .squareDraw, .square s => some (drawShapeSquare s)
  | .triangleDraw, .triangle t => some (drawShapeTriangle t)
  | _, _ => none

/-- ShapeModel<T> from src/Shape.h: stores the wrapped value (`T object`)
together with the drawShape binding fixed at instantiation. -/
structure ShapeModel where
  object : ConcreteValue
  binding : DrawBinding
deriving DecidableEq, Repr

/-- How the `object` member of a ShapeModel was initialized: by T's copy
constructor (the ShapeModel(T const&) overload) or by T's move constructor
(the ShapeModel(T&&) overload). -/
inductive InitMode where
  | copyInit
  | moveInit
deriving DecidableEq, Repr

/-- ShapeModel(T const& value) from src/Shape.h lines 29-31: copy-constructs
`object` from the argument; the draw binding is the overload for T. -/
def ShapeModel.ctorCopy (v : ConcreteValue) : ShapeModel × InitMode :=
  (⟨v, bindingFor v.tag⟩, .copyInit)

/-- ShapeModel(T&& value) from src/Shape.h lines 26-28: move-constructs
`object` from the argument; the draw binding is the overload for T. -/
def ShapeModel.ctorMove (v : ConcreteValue) : ShapeModel × InitMode :=
  (⟨v, bindingFor v.tag⟩, .moveInit)

/-- ShapeModel<T>::draw from src/Shape.h: calls drawShape(object) through the
binding fixed at instantiation. -/
def ShapeModel.draw (m : ShapeModel) : Option String :=
  applyBinding m.binding m.object

/-- ShapeModel<T>::clone from src/Shape.h: make_unique<ShapeModel>(*this),
a member-wise copy of the model (the new cell is allocated by the caller of
this embedding, see Shape.copyCtor / Shape.copyAssign). -/
def ShapeModel.clone (m : ShapeModel) : ShapeModel := m

/-- The heap of ShapeModel allocations.  An address is an index into `cells`;
allocation appends.  Deallocation is not modelled: a freed cell is simply
never referenced again, which is sound because the program observes the heap
only through live Shape addresses. -/
structure Heap where
  cells : List ShapeModel
deriving DecidableEq, Repr

/-- Allocate a fresh cell holding `m`; returns the new heap and the address. -/
def Heap.alloc (h : Heap) (m : ShapeModel) : Heap × Nat :=
  (⟨h.cells ++ [m]⟩, h.cells.length)

/-- Read the model at an address. -/
def Heap.read (h : Heap) (a : Nat) : Option ShapeModel :=
  h.cells[a]?

/-- Overwrite the cell at an address (in-place mutation of a stored model). -/
def Heap.writeAt (h : Heap) (a : Nat) (m : ShapeModel) : Heap :=
  ⟨h.cells.set a m⟩

/-- Shape from src/Shape.h: the pimpl unique_ptr, as an optional heap
address; `none` is a null pointer (the state of a moved-from Shape). -/
structure Shape where
  pimpl : Option Nat
deriving DecidableEq, Repr

/-- Shape::Shape<T>(T const& x) from src/Shape.h lines 55-57, the converting
constructor: pimpl = make_unique<ShapeModel<T>>(x).  The parameter is a const
lvalue reference, so whatever the value category of the caller's argument
(`cat` records it), the expression `x` inside the constructor is a const
lvalue and make_unique selects ShapeModel(T const&): the held value is
copy-constructed.  The returned InitMode reports which ShapeModel constructor
initialized the stored object. -/
def Shape.ctorFromValue (h : Heap) (v : ConcreteValue) (_cat : Bool) :
    Heap × Shape × InitMode :=
  let (m, mode) := ShapeModel.ctorCopy v
  let (h', a) := h.alloc m
  (h', ⟨some a⟩, mode)

/-- Wrap a concrete value in a Shape (the converting constructor, with the
InitMode bookkeeping dropped; `true` marks the rvalue arguments the driver
passes, though the constructor ignores the category). -/
def Shape.wrap (h : Heap) (v : ConcreteValue) : Heap × Shape :=
  let r := Shape.ctorFromValue h v true
  (r.1, r.2.1)

/-- The friend free function draw(Shape const&) from src/Shape.h lines 47-50:
shape.pimpl->draw(), an unchecked dereference.  A null pimpl (moved-from
wrapper) makes the dereference undefined behaviour in C++; the embedding
returns `none` for it — no guard exists in the source and `none` marks the
contract violation, not a signalled error. -/
def Shape.draw (h : Heap) (s : Shape) : Option String :=
  s.pimpl.bind fun a => (h.read a).bind fun m => m.draw

/-- Shape::Shape(Shape const& s) from src/Shape.h lines 60-63:
pimpl = s.pimpl->clone() (an unchecked dereference of the source's pimpl,
hence the Option result), then prints "copy ctor".  clone allocates a fresh
cell for the copied model.  Returns the updated heap, the new wrapper and
the lines written to std::cout. -/
def Shape.copyCtor (h : Heap) (src : Shape) :
    Option (Heap × Shape × List String) :=
  src.pimpl.bind fun a => (h.read a).map fun m =>
    let (h', a') := h.alloc m.clone
    (h', ⟨some a'⟩, ["copy ctor"])

/-- Shape::operator=(Shape const& s) from src/Shape.h lines 64-69:
pimpl = s.pimpl->clone(), then prints "copy assign".  The clone of the
source's model is fully constructed on a fresh cell before the target's old
pimpl is released; the target's old address (`_tgt`) is abandoned.  Returns
the updated heap, the new state of the target and the lines written. -/
def Shape.copyAssign (h : Heap) (_tgt src : Shape) :
    Option (Heap × Shape × List String) :=
  src.pimpl.bind fun a => (h.read a).map fun m =>
    let (h', a') := h.alloc m.clone
    (h', ⟨some a'⟩, ["copy assign"])

/-- Shape::Shape(Shape&&) = default from src/Shape.h line 72: the unique_ptr
move transfers the address to the destination and nulls the source.  The
heap is untouched (no allocation, no clone) and nothing is printed.  Returns
((destination, new state of source), lines written). -/
def Shape.moveCtor (src : Shape) : (Shape × Shape) × List String :=
  ((⟨src.pimpl⟩, ⟨none⟩), [])

/-- Shape::operator=(Shape&&) = default from src/Shape.h line 73: the
unique_ptr move assignment transfers the address and nulls the source;
the target's old address is abandoned.  Nothing is printed. -/
def Shape.moveAssign (_tgt src : Shape) : (Shape × Shape) × List String :=
  ((⟨src.pimpl⟩, ⟨none⟩), [])

/-- In-place mutation of the concrete value held by a wrapper: overwrite the
object member of the pointed-to model, leaving the binding alone.  (The demo
types are immutable after construction; this models the hypothetical mutation
the copy-independence property quantifies over.  A C++ mutation acts through
a T& and cannot change the type, so `f` below is applied to the stored value
and the interesting instances are the tag-preserving ones.) -/
def Shape.mutateValue (h : Heap) (s : Shape) (f : ConcreteValue → ConcreteValue) :
    Heap :=
  match s.pimpl with
  | none => h
  | some a =>
    match h.read a with
    | none => h
    | some m => h.writeAt a { m with object := f m.object }

/-- drawAllShaped from src/main.cpp lines 23-29: draw each Shape of the
vector in order; the outputs, in order. -/
def drawAllShaped (h : Heap) (shapes : List Shape) : List (Option String) :=
  shapes.map (Shape.draw h)

/-- Well-formedness of a wrapper against a heap: a non-null pimpl points at
an allocated cell whose binding is the drawShape overload for its stored
value's type.  Every Shape the program constructs satisfies this. -/
def Shape.WF (h : Heap) (s : Shape) : Prop :=
  ∀ a, s.pimpl = some a →
    ∃ m, h.read a = some m ∧ m.binding = bindingFor m.object.tag

/-- A concrete heap used to instantiate the general theorems: cell 0 holds a
Circle(230) model, cell 1 a Square(230) model, each with its own overload. -/
def hcw : Heap :=
  ⟨[⟨ConcreteValue.circle ⟨230⟩, DrawBinding.circleDraw⟩,
    ⟨ConcreteValue.square ⟨230⟩, DrawBinding.squareDraw⟩]⟩

/-! Helper lemmas about the heap and dispatch. -/

theorem Heap.read_alloc_self (h : Heap) (m : ShapeModel) :
    (h.alloc m).1.read (h.alloc m).2 = some m := by
  simp [Heap.alloc, Heap.read]

theorem Heap.read_alloc_of_lt (h : Heap) (m : ShapeModel) (a : Nat)
    (ha : a < h.cells.length) : (h.alloc m).1.read a = h.read a := by
  simp [Heap.alloc, Heap.read, List.getElem?_append_left ha]

theorem Heap.read_writeAt_ne (h : Heap) (a b : Nat) (m : ShapeModel)
    (hab : a ≠ b) : (h.writeAt a m).read b = h.read b := by
  simp [Heap.writeAt, Heap.read, List.getElem?_set_ne hab]

theorem Heap.lt_of_read_eq_some {h : Heap} {a : Nat} {m : ShapeModel}
    (hr : h.read a = some m) : a < h.cells.length := by
  by_contra hle
  push_neg at hle
  rw [Heap.read, List.getElem?_eq_none hle] at hr
  exact Option.noConfusion hr

theorem applyBinding_bindingFor (v : ConcreteValue) :
    applyBinding (bindingFor v.tag) v = some (drawShapeVal v) := by
  cases v <;> rfl

theorem Shape.draw_of_read {h : Heap} {s : Shape} {a : Nat} {m : ShapeModel}
    (h1 : s.pimpl = some a) (h2 : h.read a = some m) :
    Shape.draw h s = m.draw := by
  simp [Shape.draw, h1, h2]

/-! Claim theorems. -/

/-- C1: for every concrete type T for which a drawShape free function exists
(Circle, Square, Triangle), constructing a Shape from a value v of T and then
invoking draw on that Shape produces exactly the same output as calling
drawShape(v) on the unwrapped value directly. -/
theorem draw_after_wrap_eq_drawShape (h : Heap) (v : ConcreteValue) :
    Shape.draw (Shape.wrap h v).1 (Shape.wrap h v).2 = some (drawShapeVal v) := by
  have hr := Heap.read_alloc_self h ⟨v, bindingFor v.tag⟩
  simp only [Shape.wrap, Shape.ctorFromValue, ShapeModel.ctorCopy]
  rw [Shape.draw_of_read rfl hr]
  exact applyBinding_bindingFor v

/-- C4: after W2 is move-constructed (or move-assigned) from W1, drawing W2
produces exactly the output W1 would have produced before the move; the heap
is untouched (the address transfers, no clone or allocation happens, so no
duplication of the held value occurs), and W1 is left with a null pimpl, the
logically empty state that must not be rendered. -/
theorem move_transfers_and_empties (h : Heap) (s : Shape) :
    (Shape.moveCtor s).1.1.pimpl = s.pimpl ∧
    Shape.draw h (Shape.moveCtor s).1.1 = Shape.draw h s ∧
    (Shape.moveCtor s).1.2.pimpl = none ∧
    (∀ tgt, (Shape.moveAssign tgt s).1.1.pimpl = s.pimpl ∧
      Shape.draw h (Shape.moveAssign tgt s).1.1 = Shape.draw h s ∧
      (Shape.moveAssign tgt s).1.2.pimpl = none) := by
  refine ⟨rfl, rfl, rfl, fun tgt => ⟨rfl, rfl, rfl⟩⟩

/-- C7 (counterexample): the claim says that when the caller's value is moved
into the Shape converting constructor, the held value is move-constructed
rather than copied.  It is not: the constructor parameter is T const&, so an
rvalue argument (category recorded as true) still copy-constructs the stored
object — here, wrapping an rvalue Circle(230) runs ShapeModel(T const&). -/
theorem ctor_rvalue_still_copies :
    (Shape.ctorFromValue ⟨[]⟩ (ConcreteValue.circle ⟨230⟩) true).2.2 =
      InitMode.copyInit ∧ InitMode.copyInit ≠ InitMode.moveInit := by
  exact ⟨rfl, by decide⟩

/-- C7 (amended): a Shape can be constructed from a concrete value V whether
the caller passes an lvalue or an rvalue; construction always succeeds and
the new wrapper draws V; but the held value is always copy-constructed from
the caller's value — Shape's converting constructor takes T const&, so the
ShapeModel move constructor is never selected, even for rvalue arguments. -/
theorem ctor_succeeds_and_copies (h : Heap) (v : ConcreteValue) (cat : Bool) :
    (Shape.ctorFromValue h v cat).2.2 = InitMode.copyInit ∧
    Shape.draw (Shape.ctorFromValue h v cat).1 (Shape.ctorFromValue h v cat).2.1 =
      some (drawShapeVal v) := by
  refine ⟨rfl, ?_⟩
  have hr := Heap.read_alloc_self h ⟨v, bindingFor v.tag⟩
  simp only [Shape.ctorFromValue, ShapeModel.ctorCopy]
  rw [Shape.draw_of_read rfl hr]
  exact applyBinding_bindingFor v

/-- C5: wrap Circle(230) and Square(230); drawing the circle wrapper gives
"Circle: 230"; after copy-assigning the square wrapper over the circle
wrapper, drawing the (reassigned) circle wrapper gives "Square: 230", the
square's output and not the circle's. -/
theorem scenario_copy_assign_switches_output :
    Shape.draw (Shape.wrap (Shape.wrap ⟨[]⟩ (ConcreteValue.circle ⟨230⟩)).1
        (ConcreteValue.square ⟨230⟩)).1
      (Shape.wrap ⟨[]⟩ (ConcreteValue.circle ⟨230⟩)).2 = some "Circle: 230" ∧
    (Shape.copyAssign
        (Shape.wrap (Shape.wrap ⟨[]⟩ (ConcreteValue.circle ⟨230⟩)).1
          (ConcreteValue.square ⟨230⟩)).1
        (Shape.wrap ⟨[]⟩ (ConcreteValue.circle ⟨230⟩)).2
        (Shape.wrap (Shape.wrap ⟨[]⟩ (ConcreteValue.circle ⟨230⟩)).1
          (ConcreteValue.square ⟨230⟩)).2).map
      (fun r => Shape.draw r.1 r.2.1) = some (some "Square: 230") ∧
    "Square: 230" ≠ "Circle: 230" := by
  decide

/-- C6: for the sequence built by wrapping a circle of radius 230, a square
of side 230 and a default-constructed triangle, drawAllShaped produces
exactly three outputs in insertion order, each identical to that concrete
type's own drawShape on the unwrapped value, and pairwise distinct. -/
theorem scenario_collection_in_order :
    drawAllShaped
        (Shape.wrap (Shape.wrap (Shape.wrap ⟨[]⟩ (ConcreteValue.circle ⟨230⟩)).1
          (ConcreteValue.square ⟨230⟩)).1 (ConcreteValue.triangle ⟨⟩)).1
        [(Shape.wrap ⟨[]⟩ (ConcreteValue.circle ⟨230⟩)).2,
          (Shape.wrap (Shape.wrap ⟨[]⟩ (ConcreteValue.circle ⟨230⟩)).1
            (ConcreteValue.square ⟨230⟩)).2,
          (Shape.wrap (Shape.wrap (Shape.wrap ⟨[]⟩ (ConcreteValue.circle ⟨230⟩)).1
            (ConcreteValue.square ⟨230⟩)).1 (ConcreteValue.triangle ⟨⟩)).2] =
      [some (drawShapeCircle ⟨230⟩), some (drawShapeSquare ⟨230⟩),
        some (drawShapeTriangle ⟨⟩)] ∧
    drawShapeCircle ⟨230⟩ ≠ drawShapeSquare ⟨230⟩ ∧
    drawShapeCircle ⟨230⟩ ≠ drawShapeTriangle ⟨⟩ ∧
    drawShapeSquare ⟨230⟩ ≠ drawShapeTriangle ⟨⟩ := by
  decide

/-- C2: the capability binding is always consistent with the held value's
actual type: (i) a freshly constructed wrapper is well-formed — its model's
binding is the drawShape overload selected for the wrapped value's type at
wrap time; (ii) for any well-formed wrapper, draw invokes exactly that
overload on the held value; (iii) copy assignment of a wrapper holding A
over a wrapper holding B replaces value and binding together — the result is
well-formed and every subsequent draw yields A's drawShape applied to A's
data, never a mix of A's data with B's capability or vice versa. -/
theorem binding_consistent (h : Heap) (v : ConcreteValue) (cat : Bool)
    (tgt src : Shape) (a : Nat) (m : ShapeModel)
    (hsrc : src.pimpl = some a) (hread : h.read a = some m)
    (hwf : Shape.WF h src) :
    Shape.WF (Shape.ctorFromValue h v cat).1 (Shape.ctorFromValue h v cat).2.1 ∧
    Shape.draw h src = some (drawShapeVal m.object) ∧
    ∃ h' s', Shape.copyAssign h tgt src = some (h', s', ["copy assign"]) ∧
      Shape.WF h' s' ∧ Shape.draw h' s' = some (drawShapeVal m.object) := by
  obtain ⟨m', hm', hb'⟩ := hwf a hsrc
  rw [hread] at hm'
  injection hm' with hm'
  subst hm'
  have hdraw : m.draw = some (drawShapeVal m.object) := by
    rw [ShapeModel.draw, hb']
    exact applyBinding_bindingFor m.object
  have hfresh := Heap.read_alloc_self h m
  refine ⟨?_, ?_, (h.alloc m).1, ⟨some (h.alloc m).2⟩, ?_, ?_, ?_⟩
  · intro a' ha'
    simp only [Shape.ctorFromValue, ShapeModel.ctorCopy] at ha'
    injection ha' with ha'
    subst ha'
    exact ⟨⟨v, bindingFor v.tag⟩, Heap.read_alloc_self h ⟨v, bindingFor v.tag⟩, rfl⟩
  · rw [Shape.draw_of_read hsrc hread]
    exact hdraw
  · simp [Shape.copyAssign, hsrc, hread, ShapeModel.clone, Heap.alloc]
  · intro a' ha'
    injection ha' with ha'
    subst ha'
    exact ⟨m, hfresh, hb'⟩
  · rw [Shape.draw_of_read rfl hfresh]
    exact hdraw

/-- C2 witness: the theorem at a concrete input — a heap holding a circle
model and a square model, the circle wrapper as target, the square wrapper
as source. -/
theorem binding_consistent_witness :
    Shape.WF (Shape.ctorFromValue hcw (ConcreteValue.triangle ⟨⟩) true).1
      (Shape.ctorFromValue hcw (ConcreteValue.triangle ⟨⟩) true).2.1 ∧
    Shape.draw hcw (Shape.mk (some 1)) =
      some (drawShapeVal (ConcreteValue.square ⟨230⟩)) ∧
    ∃ h' s', Shape.copyAssign hcw (Shape.mk (some 0)) (Shape.mk (some 1)) =
        some (h', s', ["copy assign"]) ∧ Shape.WF h' s' ∧
      Shape.draw h' s' = some (drawShapeVal (ConcreteValue.square ⟨230⟩)) :=
  binding_consistent hcw (ConcreteValue.triangle ⟨⟩) true
    (Shape.mk (some 0)) (Shape.mk (some 1)) 1
    ⟨ConcreteValue.square ⟨230⟩, DrawBinding.squareDraw⟩ rfl rfl
    (by intro x hx; injection hx with hx; subst hx; exact ⟨_, rfl, rfl⟩)

/-- C3: copy construction of W2 from W1 (and copy assignment from W1, which
builds the same duplicate) yields a wrapper holding an independent duplicate
of W1's value with the same capability binding, on a fresh heap cell; W2
renders as W1 did; mutating the concrete value inside W1 afterwards does not
change W2's output, and mutating W2's value does not change W1's — the two
wrappers share no heap cell. -/
theorem copy_independent (h : Heap) (w1 : Shape) (a : Nat) (m : ShapeModel)
    (h1 : w1.pimpl = some a) (h2 : h.read a = some m) :
    ∃ h' w2, Shape.copyCtor h w1 = some (h', w2, ["copy ctor"]) ∧
      (∀ tgt, (Shape.copyAssign h tgt w1).map (fun r => (r.1, r.2.1)) =
        some (h', w2)) ∧
      (∃ a', w2.pimpl = some a' ∧ a' ≠ a ∧ h'.read a' = some m) ∧
      Shape.draw h' w2 = Shape.draw h w1 ∧
      (∀ f, Shape.draw (Shape.mutateValue h' w1 f) w2 = Shape.draw h' w2) ∧
      (∀ f, Shape.draw (Shape.mutateValue h' w2 f) w1 = Shape.draw h' w1) := by
  have ha : a < h.cells.length := Heap.lt_of_read_eq_some h2
  have hne : h.cells.length ≠ a := Nat.ne_of_gt ha
  have hfresh := Heap.read_alloc_self h m
  have hold : (h.alloc m).1.read a = some m := by
    rw [Heap.read_alloc_of_lt h m a ha]; exact h2
  refine ⟨(h.alloc m).1, ⟨some (h.alloc m).2⟩, ?_, ?_, ?_, ?_, ?_, ?_⟩
  · simp [Shape.copyCtor, h1, h2, ShapeModel.clone, Heap.alloc]
  · intro tgt
    simp [Shape.copyAssign, h1, h2, ShapeModel.clone, Heap.alloc]
  · exact ⟨(h.alloc m).2, rfl, hne, hfresh⟩
  · rw [Shape.draw_of_read rfl hfresh, Shape.draw_of_read h1 h2]
  · intro f
    have hw1 : Shape.mutateValue (h.alloc m).1 w1 f =
        (h.alloc m).1.writeAt a ⟨f m.object, m.binding⟩ := by
      simp only [Shape.mutateValue, h1, hold]
    rw [hw1, Shape.draw_of_read rfl (Heap.read_writeAt_ne _ a _ _ (Ne.symm hne) ▸ hfresh),
      Shape.draw_of_read rfl hfresh]
  · intro f
    have hw2 : Shape.mutateValue (h.alloc m).1 ⟨some (h.alloc m).2⟩ f =
        (h.alloc m).1.writeAt (h.alloc m).2 ⟨f m.object, m.binding⟩ := by
      simp only [Shape.mutateValue, hfresh]
    rw [hw2, Shape.draw_of_read h1 (Heap.read_writeAt_ne _ _ _ _ hne ▸ hold),
      Shape.draw_of_read h1 hold]

/-- C3 witness: the theorem at a concrete input — copying the circle wrapper
out of the two-cell heap. -/
theorem copy_independent_witness :
    ∃ h' w2, Shape.copyCtor hcw (Shape.mk (some 0)) =
        some (h', w2, ["copy ctor"]) ∧
      (∀ tgt, (Shape.copyAssign hcw tgt (Shape.mk (some 0))).map
        (fun r => (r.1, r.2.1)) = some (h', w2)) ∧
      (∃ a', w2.pimpl = some a' ∧ a' ≠ 0 ∧ h'.read a' =
        some ⟨ConcreteValue.circle ⟨230⟩, DrawBinding.circleDraw⟩) ∧
      Shape.draw h' w2 = Shape.draw hcw (Shape.mk (some 0)) ∧
      (∀ f, Shape.draw (Shape.mutateValue h' (Shape.mk (some 0)) f) w2 =
        Shape.draw h' w2) ∧
      (∀ f, Shape.draw (Shape.mutateValue h' w2 f) (Shape.mk (some 0)) =
        Shape.draw h' (Shape.mk (some 0))) :=
  copy_independent hcw (Shape.mk (some 0)) 0
    ⟨ConcreteValue.circle ⟨230⟩, DrawBinding.circleDraw⟩ rfl rfl

/-- C8: draw performs an unchecked dereference of the wrapper's pimpl: for a
well-formed wrapper the dereference succeeds — producing the bound overload's
output — exactly when the wrapper holds a value (non-null pimpl); a moved-from
wrapper's holder is null and draw has no guard and no signalled error there:
the embedding yields the undefined-behaviour marker `none`, unreachable
precisely under the holding-a-value precondition. -/
theorem draw_unchecked (h : Heap) (s : Shape) (hwf : Shape.WF h s) :
    ((∃ out, Shape.draw h s = some out) ↔ s.pimpl ≠ none) ∧
    (Shape.moveCtor s).1.2.pimpl = none ∧
    Shape.draw h (Shape.moveCtor s).1.2 = none := by
  refine ⟨⟨?_, ?_⟩, rfl, rfl⟩
  · rintro ⟨out, hout⟩ hnone
    simp [Shape.draw, hnone] at hout
  · intro hne
    obtain ⟨a, hsome⟩ := Option.ne_none_iff_exists'.mp hne
    obtain ⟨m, hm, hb⟩ := hwf a hsome
    refine ⟨drawShapeVal m.object, ?_⟩
    rw [Shape.draw_of_read hsome hm, ShapeModel.draw, hb]
    exact applyBinding_bindingFor m.object

/-- C8 witness: the theorem at a concrete input — the circle wrapper of the
two-cell heap, whose well-formedness is discharged directly. -/
theorem draw_unchecked_witness :
    ((∃ out, Shape.draw hcw (Shape.mk (some 0)) = some out) ↔
      (Shape.mk (some 0)).pimpl ≠ none) ∧
    (Shape.moveCtor (Shape.mk (some 0))).1.2.pimpl = none ∧
    Shape.draw hcw (Shape.moveCtor (Shape.mk (some 0))).1.2 = none :=
  draw_unchecked hcw (Shape.mk (some 0))
    (by intro x hx; injection hx with hx; subst hx; exact ⟨_, rfl, rfl⟩)

/-- C9: copy construction writes the line "copy ctor" to standard output and
copy assignment writes the line "copy assign", in addition to duplicating the
held value; move construction and move assignment write nothing. -/
theorem copy_prints_move_silent :
    (∀ h s r, Shape.copyCtor h s = some r → r.2.2 = ["copy ctor"]) ∧
    (∀ h t s r, Shape.copyAssign h t s = some r → r.2.2 = ["copy assign"]) ∧
    (∀ s, (Shape.moveCtor s).2 = []) ∧
    (∀ t s, (Shape.moveAssign t s).2 = []) := by
  refine ⟨?_, ?_, fun s => rfl, fun t s => rfl⟩
  · intro h s r hr
    cases hs : s.pimpl with
    | none => simp [Shape.copyCtor, hs] at hr
    | some a =>
      cases hm : h.read a with
      | none => simp [Shape.copyCtor, hs, hm] at hr
      | some m =>
        have he : Shape.copyCtor h s =
            some ((h.alloc m.clone).1, ⟨some (h.alloc m.clone).2⟩,
              ["copy ctor"]) := by
          simp [Shape.copyCtor, hs, hm]
        rw [he] at hr
        injection hr with hr
        subst hr
        rfl
  · intro h t s r hr
    cases hs : s.pimpl with
    | none => simp [Shape.copyAssign, hs] at hr
    | some a =>
      cases hm : h.read a with
      | none => simp [Shape.copyAssign, hs, hm] at hr
      | some m =>
        have he : Shape.copyAssign h t s =
            some ((h.alloc m.clone).1, ⟨some (h.alloc m.clone).2⟩,
              ["copy assign"]) := by
          simp [Shape.copyAssign, hs, hm]
        rw [he] at hr
        injection hr with hr
        subst hr
        rfl

/-- C9 witness: the theorem at a concrete input — copying the circle wrapper
out of the two-cell heap yields the "copy ctor" line, and moving it yields no
line. -/
theorem copy_prints_move_silent_witness :
    ((⟨[⟨ConcreteValue.circle ⟨230⟩, DrawBinding.circleDraw⟩,
        ⟨ConcreteValue.square ⟨230⟩, DrawBinding.squareDraw⟩,
        ⟨ConcreteValue.circle ⟨230⟩, DrawBinding.circleDraw⟩]⟩ : Heap),
      Shape.mk (some 2), (["copy ctor"] : List String)).2.2 = ["copy ctor"] ∧
    (Shape.moveCtor (Shape.mk (some 0))).2 = [] :=
  ⟨copy_prints_move_silent.1 hcw (Shape.mk (some 0)) _ (by rfl),
    copy_prints_move_silent.2.2.1 (Shape.mk (some 0))⟩

/-- C10: copy self-assignment is safe: for a wrapper w holding a value,
after w = w the wrapper again holds a model with the same value and binding
and renders exactly as before — the clone of the source's model is fully
constructed on a fresh cell before the old holder is released. -/
theorem self_assign_safe (h : Heap) (w : Shape) (a : Nat) (m : ShapeModel)
    (h1 : w.pimpl = some a) (h2 : h.read a = some m) :
    ∃ h' w', Shape.copyAssign h w w = some (h', w', ["copy assign"]) ∧
      (∃ a', w'.pimpl = some a' ∧ h'.read a' = some m) ∧
      Shape.draw h' w' = Shape.draw h w := by
  have hfresh := Heap.read_alloc_self h m
  refine ⟨(h.alloc m).1, ⟨some (h.alloc m).2⟩, ?_,
    ⟨(h.alloc m).2, rfl, hfresh⟩, ?_⟩
  · simp [Shape.copyAssign, h1, h2, ShapeModel.clone, Heap.alloc]
  · rw [Shape.draw_of_read rfl hfresh, Shape.draw_of_read h1 h2]

/-- C10 witness: the theorem at a concrete input — self-assigning the circle
wrapper of the two-cell heap. -/
theorem self_assign_safe_witness :
    ∃ h' w', Shape.copyAssign hcw (Shape.mk (some 0)) (Shape.mk (some 0)) =
        some (h', w', ["copy assign"]) ∧
      (∃ a', w'.pimpl = some a' ∧ h'.read a' =
        some ⟨ConcreteValue.circle ⟨230⟩, DrawBinding.circleDraw⟩) ∧
      Shape.draw h' w' = Shape.draw hcw (Shape.mk (some 0)) :=
  self_assign_safe hcw (Shape.mk (some 0)) 0
    ⟨ConcreteValue.circle ⟨230⟩, DrawBinding.circleDraw⟩ rfl rfl

end ShapeDemo
